import Mathlib

/-!
Formal model of the issue-resolution agent (token_manager.py, agent.py,
context_manager.py), embedded shallowly: Python strings are Lean `String`s
(sequences of code points), Python lists and insertion-ordered dicts are Lean
lists (of pairs), non-deterministic oracle calls are function parameters, and
code paths that raise an exception are modeled with `Option`/`Except`.
All string primitives are re-implemented structurally over the underlying
character lists so that every definition evaluates inside the kernel.
-/

namespace AIAgent

/-! ### Python string primitives -/

/-- Python whitespace for `str.strip()` (the ASCII fragment; the inputs the
agent handles contain no exotic Unicode space characters). -/
def isPySpace (c : Char) : Bool :=
  c == ' ' || c == '\t' || c == '\n' || c == '\r' || c == '\x0b' || c == '\x0c'

/-- Python `str.strip()` on the underlying character list. -/
def stripChars (l : List Char) : List Char :=
  ((l.dropWhile isPySpace).reverse.dropWhile isPySpace).reverse

/-- Python `str.strip()`. -/
def py_strip (s : String) : String := String.mk (stripChars s.data)

/-- Python `str.strip(c)` for a single strip character: removes every leading
and trailing occurrence of `c`. -/
def stripCharBoth (c : Char) (l : List Char) : List Char :=
  ((l.dropWhile (· == c)).reverse.dropWhile (· == c)).reverse

/-- Python `str.strip(c)` for one character. -/
def py_strip_char (c : Char) (s : String) : String := String.mk (stripCharBoth c s.data)

/-- Python `str.lstrip('- ')`: drop leading dashes and spaces. -/
def py_lstrip_dash_space (s : String) : String :=
  String.mk (s.data.dropWhile (fun c => c == '-' || c == ' '))

/-- Python `str.replace(pat, rep)` for one-character pattern and replacement
(the only form the agent uses): character-wise substitution. -/
def py_replace_char (pat rep : Char) (s : String) : String :=
  String.mk (s.data.map (fun c => if c == pat then rep else c))

/-- Splitting a character list on a separator character, keeping empty pieces,
as Python `str.split(sep)` does. -/
def splitCharAux (sep : Char) : List Char → List (List Char)
  | [] => [[]]
  | c :: rest =>
    let r := splitCharAux sep rest
    if c == sep then [] :: r
    else
      match r with
      | [] => [[c]]
      | h :: t => (c :: h) :: t

/-- Python `str.split(sep)` for a one-character separator. -/
def py_split_char (sep : Char) (s : String) : List String :=
  (splitCharAux sep s.data).map String.mk

/-- Python `str.startswith(p)`. -/
def py_startswith (s p : String) : Bool := p.data.isPrefixOf s.data

/-- Python slice `s[n:]` (by code points). -/
def py_drop (s : String) (n : Nat) : String := String.mk (s.data.drop n)

/-- Python slice `s[:n]`. -/
def py_take (s : String) (n : Nat) : String := String.mk (s.data.take n)

/-- Python `str.upper()` on the ASCII fragment. The full Unicode mapping
differs only on characters that cannot produce the ASCII marker words the
agent scans for. -/
def py_upper (s : String) : String := String.mk (s.data.map Char.toUpper)

/-- Substring containment on character lists. -/
def containsSub (needle : List Char) : List Char → Bool
  | [] => needle.isEmpty
  | c :: rest => needle.isPrefixOf (c :: rest) || containsSub needle rest

/-- Python substring test `needle in hay`. -/
def py_in (needle hay : String) : Bool := containsSub needle.data hay.data

/-- Python `str.find`: position of the first occurrence, `none` for `-1`. -/
def findSubPos (needle : List Char) : List Char → Option Nat
  | [] => if needle.isEmpty then some 0 else none
  | c :: rest =>
    if needle.isPrefixOf (c :: rest) then some 0
    else (findSubPos needle rest).map (· + 1)

/-! ### token_manager.py -/

/-- CHARS_PER_TOKEN (token_manager.py line 16). -/
def CHARS_PER_TOKEN : Nat := 4

/-- TokenManager state: the configured maximum token budget (line 25). -/
structure TokenManager where
  max_tokens : Nat
deriving DecidableEq

namespace TokenManager

/-- token_budget['exploration_log'] = max_tokens // 4 (line 27). -/
def budget_exploration_log (tm : TokenManager) : Nat := tm.max_tokens / 4

/-- token_budget['file_content'] = max_tokens // 2 (line 28). -/
def budget_file_content (tm : TokenManager) : Nat := tm.max_tokens / 2

/-- estimate_tokens (lines 32-44): `len(text) // CHARS_PER_TOKEN`, 0 for empty. -/
def estimate_tokens (_tm : TokenManager) (text : String) : Nat :=
  if text = "" then 0 else text.length / CHARS_PER_TOKEN

/-- truncate_to_token_limit (lines 46-67): under the limit the text is returned
unchanged, otherwise it is cut to `max_tokens * CHARS_PER_TOKEN` characters
and an ellipsis marker recording the original size is appended. -/
def truncate_to_token_limit (tm : TokenManager) (text : String) (max_tokens : Nat) : String :=
  let estimated_tokens := tm.estimate_tokens text
  if estimated_tokens ≤ max_tokens then text
  else
    let target_chars := max_tokens * CHARS_PER_TOKEN
    let truncated := py_take text target_chars
    let n := text.length
    truncated ++ ("\n\n... [Truncated. Original length: " ++ toString n ++ " chars, ~" ++
      toString estimated_tokens ++ " tokens]")

/-- Python `'\n\n'.join(entries)`. -/
def joinNN (l : List String) : String := String.intercalate "\n\n" l

/-- summarize_exploration_log (lines 69-99). Python `log[-3:]` and `log[:-3]`
are `drop (length - 3)` and `take (length - 3)` with truncated subtraction. -/
def summarize_exploration_log (tm : TokenManager) (exploration_log : List String) : List String :=
  if exploration_log = [] then []
  else
    let total_text := joinNN exploration_log
    let total_tokens := tm.estimate_tokens total_text
    if total_tokens ≤ tm.budget_exploration_log then exploration_log
    else
      let recent_entries := exploration_log.drop (exploration_log.length - 3)
      let old_entries := exploration_log.take (exploration_log.length - 3)
      let old_summary := "Previous " ++ toString old_entries.length ++ " tool executions (summarized)"
      old_summary :: recent_entries

/-- truncate_file_content (lines 101-132); the Python dict is modeled as an
insertion-ordered association list. -/
def truncate_file_content (tm : TokenManager) (file_contents : List (String × String))
    (max_tokens : Nat) : List (String × String) :=
  let total_text := joinNN (file_contents.map Prod.snd)
  let total_tokens := tm.estimate_tokens total_text
  if total_tokens ≤ max_tokens then file_contents
  else
    let tokens_per_file := max_tokens / file_contents.length
    file_contents.map (fun p => (p.1, tm.truncate_to_token_limit p.2 tokens_per_file))

end TokenManager

/-- A value passed as a named context to auto_truncate_contexts: the code
distinguishes plain strings, lists of strings (exploration log) and
string-to-string dicts (file contents) by `isinstance` checks. -/
inductive CtxVal where
  | str (s : String)
  | list (l : List String)
  | dict (d : List (String × String))
deriving DecidableEq

/-- Escape of one character inside a Python string repr, over the modeled
fragment (backslash, the active quote, and the common control characters;
other non-printable characters, which CPython escapes numerically, are
outside the fragment the agent manipulates). -/
def pyReprEscape (quote : Char) (c : Char) : List Char :=
  if c == '\\' then ['\\', '\\']
  else if c == quote then ['\\', quote]
  else if c == '\n' then ['\\', 'n']
  else if c == '\r' then ['\\', 'r']
  else if c == '\t' then ['\\', 't']
  else [c]

/-- Python `repr` of a string: single quotes unless the string contains a
single quote but no double quote. -/
def pyReprStr (s : String) : String :=
  let hasSingle := s.data.contains '\''
  let hasDouble := s.data.contains '"'
  let quote := if hasSingle && !hasDouble then '"' else '\''
  String.mk ((quote :: (s.data.map (pyReprEscape quote)).flatten) ++ [quote])

/-- Python `str(d)` for a dict of strings. -/
def pyReprDict (d : List (String × String)) : String :=
  "\x7b" ++ String.intercalate ", " (d.map (fun p => pyReprStr p.1 ++ ": " ++ pyReprStr p.2)) ++ "\x7d"

/-- Text that get_context_stats derives from a context value (token_manager.py
lines 151-155): lists are joined with `'\n\n'`, any other non-string goes
through `str(...)`. -/
def ctxText : CtxVal → String
  | CtxVal.str s => s
  | CtxVal.list l => TokenManager.joinNN l
  | CtxVal.dict d => pyReprDict d

namespace TokenManager

/-- Combined estimated tokens of named contexts (get_context_stats, lines
150-166). -/
def total_context_tokens (tm : TokenManager) (contexts : List (String × CtxVal)) : Nat :=
  (contexts.map (fun p => tm.estimate_tokens (ctxText p.2))).sum

/-- truncate_to_token_limit applied to a raw context value in the generic
branch of auto_truncate_contexts. For a non-string value whose
`len(value) // 4` exceeds the limit, the Python code raises `TypeError`
(a list/dict slice concatenated with a str); that path is `none`. -/
def truncate_raw_value (tm : TokenManager) (v : CtxVal) (max_tokens : Nat) : Option CtxVal :=
  match v with
  | CtxVal.str s => some (CtxVal.str (tm.truncate_to_token_limit s max_tokens))
  | CtxVal.list l =>
    let est := if l = [] then 0 else l.length / CHARS_PER_TOKEN
    if est ≤ max_tokens then some (CtxVal.list l) else none
  | CtxVal.dict d =>
    let est := if d = [] then 0 else d.length / CHARS_PER_TOKEN
    if est ≤ max_tokens then some (CtxVal.dict d) else none

/-- Generic branch of auto_truncate_contexts (lines 220-227): any context other
than a list-valued 'exploration_log' or a dict-valued 'file_content' is
truncated to 10% of the budget when its estimate exceeds that share.
Python computes the share as `int(max_tokens * 0.1)`, which equals
`max_tokens / 10` for the magnitudes a token budget takes. -/
def auto_truncate_other (tm : TokenManager) (v : CtxVal) : Option CtxVal :=
  let budget := tm.max_tokens / 10
  let current_tokens := tm.estimate_tokens (ctxText v)
  if budget < current_tokens then tm.truncate_raw_value v budget else some v

/-- Dispatch on one named context (auto_truncate_contexts, lines 211-227). -/
def auto_truncate_entry (tm : TokenManager) (name : String) (v : CtxVal) : Option CtxVal :=
  match v with
  | CtxVal.list l =>
    if name = "exploration_log" then some (CtxVal.list (tm.summarize_exploration_log l))
    else tm.auto_truncate_other (CtxVal.list l)
  | CtxVal.dict d =>
    if name = "file_content" then some (CtxVal.dict (tm.truncate_file_content d tm.budget_file_content))
    else tm.auto_truncate_other (CtxVal.dict d)
  | CtxVal.str s => tm.auto_truncate_other (CtxVal.str s)

/-- auto_truncate_contexts (token_manager.py lines 185-233): under budget the
contexts are returned unchanged; otherwise every context is truncated
per-name. The final re-estimate in the source is only printed, never
enforced. `none` models a raised `TypeError` in the generic branch. -/
def auto_truncate_contexts (tm : TokenManager) (contexts : List (String × CtxVal)) :
    Option (List (String × CtxVal)) :=
  if tm.total_context_tokens contexts ≤ tm.max_tokens then some contexts
  else contexts.mapM (fun p => (tm.auto_truncate_entry p.1 p.2).map (fun v => (p.1, v)))

end TokenManager

/-! ### agent.py -/

/-- MAX_REVIEW_ITERATIONS (agent.py line 35). -/
def MAX_REVIEW_ITERATIONS : Nat := 3

/-- os.sep on the POSIX platforms the agent targets. -/
def os_sep_char : Char := '/'

/-- Path cleaning applied to a plan line after its prefix is removed (agent.py
lines 261-262, 268-269, 274-275): strip whitespace, then surrounding double
and single quotes, then leading dashes/spaces, then normalize backslashes. -/
def clean_plan_path (s : String) : String :=
  py_replace_char '\\' '/'
    (py_lstrip_dash_space (py_strip_char '\'' (py_strip_char '"' (py_strip s))))

/-- One iteration of the plan-parsing loop (agent.py lines 256-277), updating
the accumulated (files_to_modify, files_to_create). MODIFY: and the legacy
FILE: prefix append to the modify list only when the cleaned path occurs in
the normalized candidate list; CREATE: appends unconditionally. -/
def plan_parse_line (normalized_list : List String) (acc : List String × List String)
    (line : String) : List String × List String :=
  let clean_line := py_strip line
  if py_startswith clean_line "MODIFY:" then
    let c := clean_plan_path (py_drop clean_line 7)
    if normalized_list.contains c then (acc.1 ++ [py_replace_char '/' os_sep_char c], acc.2)
    else acc
  else if py_startswith clean_line "CREATE:" then
    let c := clean_plan_path (py_drop clean_line 7)
    (acc.1, acc.2 ++ [py_replace_char '/' os_sep_char c])
  else if py_startswith clean_line "FILE:" then
    let c := clean_plan_path (py_drop clean_line 5)
    if normalized_list.contains c then (acc.1 ++ [py_replace_char '/' os_sep_char c], acc.2)
    else acc
  else acc

/-- File extraction of plan_changes (agent.py lines 250-277). -/
def plan_extract (full_response : String) (file_list : List String) :
    List String × List String :=
  let lines := py_split_char '\n' full_response
  let normalized_list := file_list.map (py_replace_char '\\' '/')
  lines.foldl (plan_parse_line normalized_list) ([], [])

/-- Reasoning extraction of plan_changes (agent.py lines 279-291): everything
before the first MODIFY:/FILE:/CREATE: marker, stripped; the whole response
when no marker occurs. -/
def plan_reasoning (full_response : String) : String :=
  let n := full_response.length
  let posMODIFY := (findSubPos "MODIFY:".data full_response.data).getD n
  let posFILE := (findSubPos "FILE:".data full_response.data).getD n
  let posCREATE := (findSubPos "CREATE:".data full_response.data).getD n
  let first_marker_pos := min posMODIFY (min posFILE posCREATE)
  if first_marker_pos < n then py_strip (py_take full_response first_marker_pos)
  else full_response

/-- plan_changes (agent.py lines 176-292) as a function of the oracle response;
with no candidate files it returns before consulting the oracle (lines
178-180). Python's `list(set(x))` deduplicates with unspecified order;
`List.dedup` is one such deduplication and the claims below depend only on
membership. -/
def plan_changes (full_response : String) (file_list : List String) :
    List String × List String × String :=
  if file_list = [] then ([], [], "")
  else
    let p := plan_extract full_response file_list
    (p.1.dedup, p.2.dedup, plan_reasoning full_response)

/-- Orchestrator gate after planning (agent.py lines 662-664): with nothing to
modify or create the process prints "No files identified..." and exits with
status 0, before any WIP PR is created or anything is pushed. -/
inductive PlanGate where
  | exitNothingToDo
  | continueRun (files_to_modify files_to_create : List String)
deriving DecidableEq

/-- The gate itself (agent.py lines 662-664). -/
def main_plan_gate (files_to_modify files_to_create : List String) : PlanGate :=
  if files_to_modify = [] ∧ files_to_create = [] then PlanGate.exitNothingToDo
  else PlanGate.continueRun files_to_modify files_to_create

/-- Verdict classification of self_review_changes (agent.py lines 360-372), as
a function of the oracle's stripped response text: REJECTED anywhere in the
upper-cased text rejects, otherwise APPROVED approves, otherwise the
unclear result is treated as approved. -/
def self_review_changes (review_result : String) : Bool × String :=
  let review_upper := py_upper review_result
  if py_in "REJECTED" review_upper then (false, review_result)
  else if py_in "APPROVED" review_upper then (true, review_result)
  else (true, review_result)

/-- Result of a generation retry loop: a syntactically valid attempt, or the
best-effort content of the final attempt (returned with a non-fatal
warning, agent.py lines 511-512 and 578-579), with the number of oracle
calls made. -/
inductive GenOutcome where
  | valid (code : String) (calls : Nat)
  | bestEffort (code : String) (calls : Nat)
deriving DecidableEq

/-- Returned content of a generation outcome. -/
def GenOutcome.code : GenOutcome → String
  | GenOutcome.valid c _ => c
  | GenOutcome.bestEffort c _ => c

/-- Number of oracle calls of a generation outcome. -/
def GenOutcome.calls : GenOutcome → Nat
  | GenOutcome.valid _ n => n
  | GenOutcome.bestEffort _ n => n

/-- The `for attempt in range(3)` retry loop shared by apply_fix (agent.py
lines 493-512) and create_new_file (lines 564-579). `candidate i` is the
cleaned oracle response of attempt `i` (the oracle is non-deterministic and
receives the accumulated syntax-error feedback), `syntax_ok` is
check_syntax. After the loop the last attempt's content is returned. -/
def generation_attempts (candidate : Nat → String) (syntax_ok : String → Bool) :
    List Nat → GenOutcome
  | [] => GenOutcome.bestEffort "" 0
  | [i] =>
    let code := candidate i
    if syntax_ok code then GenOutcome.valid code 1 else GenOutcome.bestEffort code 1
  | i :: j :: rest =>
    let code := candidate i
    if syntax_ok code then GenOutcome.valid code 1
    else
      match generation_attempts candidate syntax_ok (j :: rest) with
      | GenOutcome.valid c n => GenOutcome.valid c (n + 1)
      | GenOutcome.bestEffort c n => GenOutcome.bestEffort c (n + 1)

/-- apply_fix (agent.py lines 426-512): the `range(3)` retry loop. -/
def apply_fix (candidate : Nat → String) (syntax_ok : String → Bool) : GenOutcome :=
  generation_attempts candidate syntax_ok [0, 1, 2]

/-- create_new_file (agent.py lines 514-579): the same `range(3)` loop. -/
def create_new_file (candidate : Nat → String) (syntax_ok : String → Bool) : GenOutcome :=
  generation_attempts candidate syntax_ok [0, 1, 2]

/-- A bounded `while count < limit` retry loop: one attempt per iteration,
stopping at the first success or once `limit` iterations have run. Returns
(number of attempts made, whether one succeeded); `remaining` is
`limit - count` and `i` the current iteration index. -/
def bounded_attempt_loop (succeeds : Nat → Bool) : Nat → Nat → Nat × Bool
  | 0, _ => (0, false)
  | Nat.succ remaining, i =>
    if succeeds i then (1, true)
    else
      let rest := bounded_attempt_loop succeeds remaining (i + 1)
      (rest.1 + 1, rest.2)

/-- Review-refactor loop (agent.py lines 725-839): one self-review oracle call
per iteration, bounded by MAX_REVIEW_ITERATIONS; returns (review calls,
approved). On exhausting the bound the work is committed anyway. -/
def run_review_loop (verdict : Nat → Bool) : Nat × Bool :=
  bounded_attempt_loop verdict MAX_REVIEW_ITERATIONS 0

/-- max_repairs (agent.py line 850). -/
def max_repairs : Nat := 3

/-- Test-verification loop (agent.py lines 854-907): one sandboxed test run per
iteration, bounded by max_repairs; returns (test runs, passed). -/
def run_test_loop (test_passes : Nat → Bool) : Nat × Bool :=
  bounded_attempt_loop test_passes max_repairs 0

/-! ### context_manager.py -/

/-- Chunk metadata stored at indexing time (context_manager.py lines 209-215). -/
structure ChunkMeta where
  file_path : String
  chunk_index : Nat
  start_line : Nat
  end_line : Nat
  file_size : Nat
deriving DecidableEq

/-- Shape of a raw `collection.query` result: parallel per-query lists of
documents and metadata, and an optional distances key. -/
structure QueryResult where
  documents : List (List String)
  metadatas : List (List ChunkMeta)
  distances : Option (List (List ℚ))
deriving DecidableEq

/-- One formatted search result (context_manager.py lines 258-264). -/
structure SearchResult where
  file_path : String
  content : String
  start_line : Nat
  end_line : Nat
  distance : Option ℚ
deriving DecidableEq

/-- Formatting loop of semantic_search (context_manager.py lines 255-264);
`none` models an IndexError escaping to the enclosing `except`. -/
def format_results (r : QueryResult) : Option (List SearchResult) :=
  match r.documents with
  | [] => some []
  | docs0 :: _ =>
    (List.range docs0.length).mapM (fun i =>
      match r.metadatas.head? with
      | none => none
      | some meta0 =>
        match meta0.get? i, docs0.get? i with
        | some m, some doc =>
          match r.distances with
          | none => some ⟨m.file_path, doc, m.start_line, m.end_line, none⟩
          | some ds =>
            match ds.head? with
            | none => none
            | some ds0 =>
              match ds0.get? i with
              | none => none
              | some d => some ⟨m.file_path, doc, m.start_line, m.end_line, some d⟩
        | _, _ => none)

/-- semantic_search (context_manager.py lines 237-269): the whole body runs in
a try/except that returns [] on any backend or formatting exception. -/
def semantic_search (backend : Except String QueryResult) : List SearchResult :=
  match backend with
  | Except.error _ => []
  | Except.ok res =>
    match format_results res with
    | none => []
    | some l => l

/-- Python falsy coercion `r['distance'] if r['distance'] else 0` (line 292):
None and 0.0 both become 0, any other number is itself. -/
def distVal : Option ℚ → ℚ
  | none => 0
  | some d => d

/-- One step of building the seen_files dict (context_manager.py lines
289-292): only a file's first chunk in result order records its distance. -/
def seen_step (seen : List (String × ℚ)) (r : SearchResult) : List (String × ℚ) :=
  if (seen.map Prod.fst).contains r.file_path then seen
  else seen ++ [(r.file_path, distVal r.distance)]

/-- The seen_files dict after the whole loop (lines 289-292). -/
def seen_files_fold (results : List SearchResult) : List (String × ℚ) :=
  results.foldl seen_step []

/-- Ascending comparison on the stored distance, the key of Python
`sorted(seen_files.items(), key=lambda x: x[1])` (line 295). -/
def byDistance (a b : String × ℚ) : Prop := a.2 ≤ b.2

instance : DecidableRel byDistance := fun a b => inferInstanceAs (Decidable (a.2 ≤ b.2))

instance : IsTotal (String × ℚ) byDistance := ⟨fun a b => le_total a.2 b.2⟩

instance : IsTrans (String × ℚ) byDistance := ⟨fun _ _ _ h h2 => le_trans h h2⟩

/-- get_relevant_files (context_manager.py lines 271-298) as a function of the
semantic_search results. CPython's `sorted` is the stable ascending sort,
which insertion sort computes. -/
def get_relevant_files (results : List SearchResult) (max_files : Nat) : List String :=
  let seen_files := seen_files_fold results
  let sorted_files := List.insertionSort byDistance seen_files
  (sorted_files.take max_files).map Prod.fst

/-- Distance the code records for a file: that of its first chunk in result
order (coerced through `distVal`); 0 if the file never occurs. -/
def first_chunk_dist (results : List SearchResult) (f : String) : ℚ :=
  match results.find? (fun r => r.file_path == f) with
  | none => 0
  | some r => distVal r.distance

/-- All (coerced) chunk distances belonging to one file, in result order. -/
def file_chunk_dists (results : List SearchResult) (f : String) : List ℚ :=
  (results.filter (fun r => r.file_path == f)).map (fun r => distVal r.distance)

/-- The aggregation the specification describes (not the one the code
computes): the best (minimum) distance among a file's chunks, `none` when
the file has no chunk. Kept for comparison against `first_chunk_dist`. -/
def claimed_min_chunk_dist (results : List SearchResult) (f : String) : Option ℚ :=
  (file_chunk_dists results f).min?

/-- Recognizer for oracle responses in which no line carries a plan prefix
(after stripping), the second "empty plan" situation of the specification. -/
def lines_match_none (full_response : String) : Bool :=
  (py_split_char '\n' full_response).all (fun l =>
    !(py_startswith (py_strip l) "MODIFY:" || py_startswith (py_strip l) "CREATE:" ||
      py_startswith (py_strip l) "FILE:"))

/-! ### Concrete inputs used by witnesses and counterexamples -/

/-- A TokenManager with an 8-token budget. -/
def tmSmall : TokenManager := TokenManager.mk 8

/-- A TokenManager with the default 16000-token budget. -/
def tmBig : TokenManager := TokenManager.mk 16000

/-- A 40-character exploration-log entry (10 estimated tokens). -/
def entry40 : String := "aaaaaaaaaaaaaaaaaaaaaaaaaaaaaaaaaaaaaaaa"

/-- Three long recent entries: over budget, yet all kept by summarization. -/
def overLogCtxs : List (String × CtxVal) :=
  [("exploration_log", CtxVal.list [entry40, entry40, entry40])]

/-- The allocation result for `overLogCtxs` under `tmSmall`. -/
def overLogOut : List (String × CtxVal) :=
  [("exploration_log",
    CtxVal.list ["Previous 0 tool executions (summarized)", entry40, entry40, entry40])]

/-- A small under-budget context set. -/
def underBudgetCtxs : List (String × CtxVal) :=
  [("file_content", CtxVal.dict [("f.py", "x")]), ("issue", CtxVal.str "hello")]

/-- Search results in which file "a"'s best chunk (distance 1) is listed after
a worse chunk (distance 5), while file "b" has one chunk at distance 3. -/
def cexResults : List SearchResult :=
  [SearchResult.mk "a" "chunk1" 1 2 (some 5),
   SearchResult.mk "a" "chunk2" 3 4 (some 1),
   SearchResult.mk "b" "chunk3" 5 6 (some 3)]

/-- Backend results already sorted ascending by distance. -/
def sortedResults : List SearchResult :=
  [SearchResult.mk "a" "chunk1" 1 2 (some 1),
   SearchResult.mk "b" "chunk2" 3 4 (some 3),
   SearchResult.mk "a" "chunk3" 5 6 (some 5)]

/-- A malformed backend result: one document but no metadata row, so the
formatting loop raises an IndexError. -/
def mismatchedQuery : QueryResult := QueryResult.mk [["doc"]] [] none

/-- A candidate generator for the generation-loop witnesses. -/
def witCandidate : Nat → String := fun i => toString i

/-- A syntax check that rejects everything. -/
def rejectAll : String → Bool := fun _ => false

/-! ## Helper lemmas -/

/-- The generation retry loop performs at most one oracle call per attempt
index in its list. -/
theorem generation_attempts_calls_le (candidate : Nat → String) (syntax_ok : String → Bool) :
    ∀ l : List Nat, (generation_attempts candidate syntax_ok l).calls ≤ l.length
  | [] => by simp [generation_attempts, GenOutcome.calls]
  | [i] => by
    unfold generation_attempts
    cases h : syntax_ok (candidate i) <;> simp [h, GenOutcome.calls]
  | i :: j :: rest => by
    unfold generation_attempts
    cases h : syntax_ok (candidate i)
    · have ih := generation_attempts_calls_le candidate syntax_ok (j :: rest)
      cases hg : generation_attempts candidate syntax_ok (j :: rest) with
      | valid c n => simp [h, hg, GenOutcome.calls] at ih ⊢; omega
      | bestEffort c n => simp [h, hg, GenOutcome.calls] at ih ⊢; omega
    · simp [h, GenOutcome.calls]

/-- A `while count < limit` retry loop runs at most `limit - count` attempts. -/
theorem bounded_attempt_loop_le (succeeds : Nat → Bool) :
    ∀ (remaining i : Nat), (bounded_attempt_loop succeeds remaining i).1 ≤ remaining
  | 0, _ => by simp [bounded_attempt_loop]
  | Nat.succ r, i => by
    unfold bounded_attempt_loop
    cases h : succeeds i
    · have ih := bounded_attempt_loop_le succeeds r (i + 1)
      simp only [h, Bool.false_eq_true, if_false]
      omega
    · simp

/-! ## Claims -/

/-- C2: the generation stage issues at most 3 oracle calls per file per
invocation, the review loop performs at most MAX_REVIEW_ITERATIONS = 3
review iterations, and the test-verification loop performs at most
max_repairs = 3 sandboxed test runs; each loop is a total function, so the
orchestrator reaches a terminal state within these bounds. -/
theorem spec_c2 (candidate : Nat → String) (syntax_ok : String → Bool)
    (verdict : Nat → Bool) (test_passes : Nat → Bool) :
    (apply_fix candidate syntax_ok).calls ≤ 3 ∧
    (create_new_file candidate syntax_ok).calls ≤ 3 ∧
    (run_review_loop verdict).1 ≤ MAX_REVIEW_ITERATIONS ∧ MAX_REVIEW_ITERATIONS = 3 ∧
    (run_test_loop test_passes).1 ≤ max_repairs ∧ max_repairs = 3 := by
  refine ⟨?_, ?_, ?_, rfl, ?_, rfl⟩
  · simpa using generation_attempts_calls_le candidate syntax_ok [0, 1, 2]
  · simpa using generation_attempts_calls_le candidate syntax_ok [0, 1, 2]
  · exact bounded_attempt_loop_le verdict MAX_REVIEW_ITERATIONS 0
  · exact bounded_attempt_loop_le test_passes max_repairs 0

/-- C3: the review verdict is Rejected exactly when the upper-cased response
contains "REJECTED"; in every other case, whether "APPROVED" occurs or no
marker occurs at all, the verdict is Approved, so REJECTED takes precedence
and ambiguous output never blocks the pipeline. -/
theorem spec_c3 :
    (∀ review_result : String,
      (self_review_changes review_result).1 = !(py_in "REJECTED" (py_upper review_result))) ∧
    (self_review_changes "APPROVED in part, but ultimately REJECTED").1 = false ∧
    (self_review_changes "definitely approved").1 = true ∧
    (self_review_changes "no clear verdict").1 = true := by
  refine ⟨?_, by decide, by decide, by decide⟩
  intro s
  unfold self_review_changes
  cases h : py_in "REJECTED" (py_upper s)
  · cases h2 : py_in "APPROVED" (py_upper s) <;> simp [h, h2]
  · simp [h]

/-- C6: when all 3 generation attempts fail the syntax check, apply_fix and
create_new_file both return the content of the last attempt as a
best-effort (non-fatal) outcome after exactly 3 oracle calls. -/
theorem spec_c6 (candidate : Nat → String) (syntax_ok : String → Bool)
    (hfail : ∀ i, i < 3 → syntax_ok (candidate i) = false) :
    apply_fix candidate syntax_ok = GenOutcome.bestEffort (candidate 2) 3 ∧
    create_new_file candidate syntax_ok = GenOutcome.bestEffort (candidate 2) 3 := by
  have h0 := hfail 0 (by omega)
  have h1 := hfail 1 (by omega)
  have h2 := hfail 2 (by omega)
  constructor <;>
    simp [apply_fix, create_new_file, generation_attempts, h0, h1, h2]

/-- Witness for C6 at a concrete generator and an always-failing checker. -/
theorem spec_c6_witness :
    (∀ i, i < 3 → rejectAll (witCandidate i) = false) ∧
    apply_fix witCandidate rejectAll = GenOutcome.bestEffort (witCandidate 2) 3 ∧
    create_new_file witCandidate rejectAll = GenOutcome.bestEffort (witCandidate 2) 3 :=
  ⟨fun _ _ => rfl, (spec_c6 witCandidate rejectAll (fun _ _ => rfl)).1,
    (spec_c6 witCandidate rejectAll (fun _ _ => rfl)).2⟩

/-- C8: when the embedding/search backend raises, semantic_search returns the
empty list; and an exception inside the result-formatting loop is likewise
swallowed into an empty result. Totality of the Lean function reflects
that no exception propagates to the caller. -/
theorem spec_c8 :
    (∀ msg : String, semantic_search (Except.error msg) = []) ∧
    (∀ res : QueryResult, format_results res = none → semantic_search (Except.ok res) = []) := by
  refine ⟨fun _ => rfl, fun res h => ?_⟩
  simp [semantic_search, h]

/-- Witness for C8 at a malformed backend result. -/
theorem spec_c8_witness :
    format_results mismatchedQuery = none ∧
    semantic_search (Except.ok mismatchedQuery) = [] :=
  ⟨by decide, spec_c8.2 mismatchedQuery (by decide)⟩

/-- C9: whenever the combined estimated token count of the input contexts is
at most the budget, auto_truncate_contexts returns every context unchanged. -/
theorem spec_c9 (tm : TokenManager) (contexts : List (String × CtxVal))
    (hunder : tm.total_context_tokens contexts ≤ tm.max_tokens) :
    tm.auto_truncate_contexts contexts = some contexts := by
  unfold TokenManager.auto_truncate_contexts
  simp [hunder]

/-- Witness for C9 at a concrete under-budget context set. -/
theorem spec_c9_witness :
    tmBig.total_context_tokens underBudgetCtxs ≤ tmBig.max_tokens ∧
    tmBig.auto_truncate_contexts underBudgetCtxs = some underBudgetCtxs :=
  ⟨by decide, spec_c9 tmBig underBudgetCtxs (by decide)⟩

/-- Keys of truncate_file_content: the output lists exactly the input file
names, and it is either the unchanged input (under budget) or the even-share
truncation of every file. -/
theorem truncate_file_content_shape (tm : TokenManager) (d : List (String × String)) (mx : Nat) :
    (tm.truncate_file_content d mx).map Prod.fst = d.map Prod.fst ∧
    (tm.truncate_file_content d mx = d ∨
      tm.truncate_file_content d mx =
        d.map (fun q => (q.1, tm.truncate_to_token_limit q.2 (mx / d.length)))) := by
  simp only [TokenManager.truncate_file_content]
  by_cases hc : tm.estimate_tokens (TokenManager.joinNN (d.map Prod.snd)) ≤ mx
  · rw [if_pos hc]
    exact ⟨rfl, Or.inl rfl⟩
  · rw [if_neg hc]
    refine ⟨?_, Or.inr rfl⟩
    simp [List.map_map, Function.comp]

/-- Per-entry shape of the over-budget branch of auto_truncate_contexts. -/
theorem auto_truncate_mapM_forall₂ (tm : TokenManager) :
    ∀ (contexts out : List (String × CtxVal)),
      contexts.mapM (fun p => (tm.auto_truncate_entry p.1 p.2).map (fun v => (p.1, v))) =
        some out →
      List.Forall₂ (fun i o =>
        i.1 = o.1 ∧
        ∀ d, i.1 = "file_content" → i.2 = CtxVal.dict d →
          ∃ d2, o.2 = CtxVal.dict d2 ∧ d2.map Prod.fst = d.map Prod.fst ∧
            (d2 = d ∨ d2 = d.map (fun q =>
              (q.1, tm.truncate_to_token_limit q.2 (tm.budget_file_content / d.length)))))
        contexts out
  | [], out, h => by
    simp only [List.mapM_nil, pure, Option.some.injEq] at h
    rw [← h]
    exact List.Forall₂.nil
  | p :: ps, out, h => by
    rw [List.mapM_cons] at h
    cases he : tm.auto_truncate_entry p.1 p.2 with
    | none => rw [he] at h; simp at h
    | some w =>
      rw [he] at h
      cases hrest : ps.mapM (fun p => (tm.auto_truncate_entry p.1 p.2).map (fun v => (p.1, v))) with
      | none => rw [hrest] at h; simp at h
      | some vs =>
        rw [hrest] at h
        simp at h
        subst h
        refine List.Forall₂.cons ⟨rfl, ?_⟩ (auto_truncate_mapM_forall₂ tm ps vs hrest)
        intro d hn hd
        rw [hd] at he
        simp only [TokenManager.auto_truncate_entry, hn, if_true, Option.some.injEq] at he
        refine ⟨tm.truncate_file_content d tm.budget_file_content, ?_, ?_, ?_⟩
        · exact he.symm
        · exact (truncate_file_content_shape tm d tm.budget_file_content).1
        · exact (truncate_file_content_shape tm d tm.budget_file_content).2

/-- C1 as stated is false: the amended claim. When allocation succeeds it
returns a value for every input name in order, and a dict-valued
"file_content" context keeps every file name, each file either unchanged
(under the file budget) or truncated to its evenly split share of that
budget with a marker — never dropped. The combined estimate of the result,
however, may exceed the budget (see the counterexample). -/
theorem spec_c1_amended (tm : TokenManager) (contexts out : List (String × CtxVal))
    (h : tm.auto_truncate_contexts contexts = some out) :
    List.Forall₂ (fun i o =>
      i.1 = o.1 ∧
      ∀ d, i.1 = "file_content" → i.2 = CtxVal.dict d →
        ∃ d2, o.2 = CtxVal.dict d2 ∧ d2.map Prod.fst = d.map Prod.fst ∧
          (d2 = d ∨ d2 = d.map (fun q =>
            (q.1, tm.truncate_to_token_limit q.2 (tm.budget_file_content / d.length)))))
      contexts out := by
  unfold TokenManager.auto_truncate_contexts at h
  by_cases hb : tm.total_context_tokens contexts ≤ tm.max_tokens
  · rw [if_pos hb] at h
    injection h with h
    rw [← h]
    exact List.forall₂_same.2 (fun x _ => ⟨rfl, fun d _ hd => ⟨d, by rw [hd], rfl, Or.inl rfl⟩⟩)
  · rw [if_neg hb] at h
    exact auto_truncate_mapM_forall₂ tm contexts out h

set_option maxRecDepth 40000 in
/-- Counterexample to C1 as stated: with an 8-token budget and an exploration
log of three 40-character entries (no file context at all), allocation
keeps all three entries plus a summary line, and the result re-estimates to
41 tokens, exceeding the budget — with no single file exceeding an evenly
split share involved. -/
theorem spec_c1_counterexample :
    overLogCtxs = [("exploration_log", CtxVal.list [entry40, entry40, entry40])] ∧
    tmSmall.max_tokens = 8 ∧
    tmSmall.auto_truncate_contexts overLogCtxs = some overLogOut ∧
    tmSmall.total_context_tokens overLogOut = 41 := by
  refine ⟨rfl, rfl, by decide, by decide⟩

/-- Witness for the amended C1 at a concrete context set. -/
theorem spec_c1_witness :
    tmBig.auto_truncate_contexts underBudgetCtxs = some underBudgetCtxs ∧
    List.Forall₂ (fun i o =>
      i.1 = o.1 ∧
      ∀ d, i.1 = "file_content" → i.2 = CtxVal.dict d →
        ∃ d2, o.2 = CtxVal.dict d2 ∧ d2.map Prod.fst = d.map Prod.fst ∧
          (d2 = d ∨ d2 = d.map (fun q =>
            (q.1, tmBig.truncate_to_token_limit q.2 (tmBig.budget_file_content / d.length)))))
      underBudgetCtxs underBudgetCtxs :=
  ⟨by decide, spec_c1_amended tmBig underBudgetCtxs underBudgetCtxs (by decide)⟩

/-- C10 as stated is false for logs of fewer than 3 entries: the amended
claim. For a non-empty log of at most 3 entries whose total estimate
exceeds the exploration budget, the result is the placeholder
"Previous 0 tool executions (summarized)" followed by all original entries
unchanged — one entry longer than the input, nothing removed. -/
theorem spec_c10_amended (tm : TokenManager) (exploration_log : List String)
    (hne : exploration_log ≠ [])
    (hlen : exploration_log.length ≤ 3)
    (hover : tm.budget_exploration_log <
      tm.estimate_tokens (TokenManager.joinNN exploration_log)) :
    tm.summarize_exploration_log exploration_log =
      "Previous 0 tool executions (summarized)" :: exploration_log ∧
    (tm.summarize_exploration_log exploration_log).length = exploration_log.length + 1 := by
  have hsub : exploration_log.length - 3 = 0 := Nat.sub_eq_zero_of_le hlen
  have hnle : ¬ tm.estimate_tokens (TokenManager.joinNN exploration_log) ≤
      tm.budget_exploration_log := not_le.2 hover
  have hmain : tm.summarize_exploration_log exploration_log =
      "Previous 0 tool executions (summarized)" :: exploration_log := by
    simp only [TokenManager.summarize_exploration_log, hne, hnle, if_false, hsub,
      List.take_zero, List.drop_zero, List.length_nil]
    exact congrArg (· :: exploration_log) (by decide)
  exact ⟨hmain, by rw [hmain]; simp⟩

/-- Counterexample to C10 as stated: a single over-budget entry satisfies the
claim's hypotheses, yet the output has 2 entries, not 4. -/
theorem spec_c10_counterexample :
    ([entry40] : List String) ≠ [] ∧
    ([entry40] : List String).length ≤ 3 ∧
    tmSmall.budget_exploration_log <
      tmSmall.estimate_tokens (TokenManager.joinNN [entry40]) ∧
    tmSmall.summarize_exploration_log [entry40] =
      ["Previous 0 tool executions (summarized)", entry40] ∧
    (tmSmall.summarize_exploration_log [entry40]).length ≠ 4 := by
  refine ⟨by decide, by decide, by decide, by decide, by decide⟩

/-- Witness for the amended C10 at a two-entry over-budget log. -/
theorem spec_c10_witness :
    (([entry40, entry40] : List String) ≠ [] ∧
      ([entry40, entry40] : List String).length ≤ 3 ∧
      tmSmall.budget_exploration_log <
        tmSmall.estimate_tokens (TokenManager.joinNN [entry40, entry40])) ∧
    tmSmall.summarize_exploration_log [entry40, entry40] =
      "Previous 0 tool executions (summarized)" :: [entry40, entry40] :=
  ⟨⟨by decide, by decide, by decide⟩,
    (spec_c10_amended tmSmall [entry40, entry40] (by decide) (by decide) (by decide)).1⟩

/-- Lists added to the modify set by one parsed line come from the normalized
candidate list. -/
theorem plan_parse_line_modify (nl : List String) (acc : List String × List String)
    (line : String) :
    ∀ p ∈ (plan_parse_line nl acc line).1,
      p ∈ acc.1 ∨ ∃ c ∈ nl, p = py_replace_char '/' os_sep_char c := by
  intro p hp
  unfold plan_parse_line at hp
  dsimp only at hp
  split_ifs at hp with hM hc hC hF hc2
  · simp at hp
    rcases hp with h | h
    · exact Or.inl h
    · exact Or.inr ⟨_, List.elem_iff.1 hc, h⟩
  · exact Or.inl hp
  · exact Or.inl hp
  · simp at hp
    rcases hp with h | h
    · exact Or.inl h
    · exact Or.inr ⟨_, List.elem_iff.1 hc2, h⟩
  · exact Or.inl hp
  · exact Or.inl hp

/-- The whole parsing fold only ever adds validated paths to the modify list. -/
theorem plan_foldl_modify (nl : List String) :
    ∀ (lines : List String) (acc : List String × List String) (p : String),
      p ∈ (lines.foldl (plan_parse_line nl) acc).1 →
      p ∈ acc.1 ∨ ∃ c ∈ nl, p = py_replace_char '/' os_sep_char c
  | [], _, _, hp => Or.inl hp
  | l :: ls, acc, p, hp => by
    rw [List.foldl_cons] at hp
    rcases plan_foldl_modify nl ls (plan_parse_line nl acc l) p hp with h | h
    · exact plan_parse_line_modify nl acc l p h
    · exact Or.inr h

/-- C4: every path in the modify set of a parsed plan is a member of the
candidate file list after path normalization (backslashes to slashes, then
slashes to the platform separator); this covers both MODIFY: and legacy
FILE: lines. CREATE: paths are accepted with no validation: a path absent
from the candidates still lands in the create set. -/
theorem spec_c4 :
    (∀ (full_response : String) (file_list : List String) (p : String),
      p ∈ (plan_changes full_response file_list).1 →
      ∃ f ∈ file_list,
        p = py_replace_char '/' os_sep_char (py_replace_char '\\' '/' f)) ∧
    (plan_changes "CREATE: src/brand_new.py" ["main.py"]).2.1 = ["src/brand_new.py"] ∧
    (plan_changes "FILE: main.py" ["main.py"]).1 = ["main.py"] := by
  refine ⟨?_, by decide, by decide⟩
  intro resp fl p hp
  unfold plan_changes at hp
  by_cases hfl : fl = []
  · rw [if_pos hfl] at hp
    simp at hp
  · rw [if_neg hfl] at hp
    simp only at hp
    have hp' : p ∈ (plan_extract resp fl).1 := List.mem_dedup.1 hp
    unfold plan_extract at hp'
    rcases plan_foldl_modify (fl.map (py_replace_char '\\' '/'))
        (py_split_char '\n' resp) ([], []) p hp' with h | ⟨c, hc, rfl⟩
    · simp at h
    · rcases List.mem_map.1 hc with ⟨f, hf, rfl⟩
      exact ⟨f, hf, rfl⟩

/-- Witness for C4: a concrete MODIFY: line whose path is in the candidates. -/
theorem spec_c4_witness :
    "a.py" ∈ (plan_changes "MODIFY: a.py" ["a.py"]).1 ∧
    ∃ f ∈ ["a.py"],
      "a.py" = py_replace_char '/' os_sep_char (py_replace_char '\\' '/' f) :=
  ⟨by decide, spec_c4.1 "MODIFY: a.py" ["a.py"] "a.py" (by decide)⟩

/-- A line with none of the three prefixes leaves the accumulator unchanged. -/
theorem plan_parse_line_nomatch (nl : List String) (acc : List String × List String)
    (line : String)
    (h1 : py_startswith (py_strip line) "MODIFY:" = false)
    (h2 : py_startswith (py_strip line) "CREATE:" = false)
    (h3 : py_startswith (py_strip line) "FILE:" = false) :
    plan_parse_line nl acc line = acc := by
  unfold plan_parse_line
  simp [h1, h2, h3]

/-- With no matching line, the fold returns the accumulator unchanged. -/
theorem plan_foldl_nomatch (nl : List String) :
    ∀ (lines : List String) (acc : List String × List String),
      (∀ l ∈ lines,
        py_startswith (py_strip l) "MODIFY:" = false ∧
        py_startswith (py_strip l) "CREATE:" = false ∧
        py_startswith (py_strip l) "FILE:" = false) →
      lines.foldl (plan_parse_line nl) acc = acc
  | [], _, _ => rfl
  | l :: ls, acc, h => by
    rw [List.foldl_cons]
    obtain ⟨h1, h2, h3⟩ := h l (List.mem_cons_self l ls)
    rw [plan_parse_line_nomatch nl acc l h1 h2 h3]
    exact plan_foldl_nomatch nl ls acc (fun x hx => h x (List.mem_cons_of_mem l hx))

/-- C5: with an empty candidate list, plan_changes returns the empty plan
(modify, create and rationale all empty); likewise, when no response line
carries a recognized prefix both sets are empty — and in either situation
the orchestrator's gate exits cleanly as "nothing to do" (exit status 0,
before any PR is created or pushed). -/
theorem spec_c5 :
    (∀ full_response : String,
      plan_changes full_response [] = ([], [], "") ∧
      main_plan_gate (plan_changes full_response []).1 (plan_changes full_response []).2.1 =
        PlanGate.exitNothingToDo) ∧
    (∀ (full_response : String) (file_list : List String),
      lines_match_none full_response = true →
      (plan_changes full_response file_list).1 = [] ∧
      (plan_changes full_response file_list).2.1 = [] ∧
      main_plan_gate (plan_changes full_response file_list).1
        (plan_changes full_response file_list).2.1 = PlanGate.exitNothingToDo) := by
  constructor
  · intro resp
    constructor
    · simp [plan_changes]
    · simp [plan_changes, main_plan_gate]
  · intro resp fl hnone
    have hall := List.all_eq_true.1 hnone
    have hfold : ∀ acc, (py_split_char '\n' resp).foldl
        (plan_parse_line (fl.map (py_replace_char '\\' '/'))) acc = acc := by
      intro acc
      refine plan_foldl_nomatch _ _ acc (fun l hl => ?_)
      have := hall l hl
      simp only [Bool.not_or, Bool.and_eq_true, Bool.not_eq_true'] at this
      exact ⟨this.1.1, this.1.2, this.2⟩
    have hext : plan_extract resp fl = ([], []) := by
      unfold plan_extract
      exact hfold ([], [])
    by_cases hfl : fl = []
    · simp [plan_changes, hfl, main_plan_gate]
    · refine ⟨?_, ?_, ?_⟩ <;>
        simp [plan_changes, hfl, hext, main_plan_gate]

/-- Witness for C5 at a concrete unparseable response. -/
theorem spec_c5_witness :
    lines_match_none "the oracle digressed at length" = true ∧
    (plan_changes "the oracle digressed at length" ["main.py"]).1 = [] ∧
    (plan_changes "the oracle digressed at length" ["main.py"]).2.1 = [] ∧
    main_plan_gate (plan_changes "the oracle digressed at length" ["main.py"]).1
      (plan_changes "the oracle digressed at length" ["main.py"]).2.1 =
      PlanGate.exitNothingToDo :=
  ⟨by decide,
    (spec_c5.2 "the oracle digressed at length" ["main.py"] (by decide)).1,
    (spec_c5.2 "the oracle digressed at length" ["main.py"] (by decide)).2.1,
    (spec_c5.2 "the oracle digressed at length" ["main.py"] (by decide)).2.2⟩

/-- Folding search results keeps the seen_files keys free of duplicates. -/
theorem seen_foldl_keys_nodup :
    ∀ (results : List SearchResult) (acc : List (String × ℚ)),
      (acc.map Prod.fst).Nodup → ((results.foldl seen_step acc).map Prod.fst).Nodup
  | [], _, h => h
  | r :: rs, acc, h => by
    rw [List.foldl_cons]
    apply seen_foldl_keys_nodup rs
    unfold seen_step
    cases hc : (acc.map Prod.fst).contains r.file_path
    · rw [if_neg (by simp [hc])]
      have hk : r.file_path ∉ acc.map Prod.fst := by
        intro hm
        have ht : (acc.map Prod.fst).contains r.file_path = true := List.elem_iff.2 hm
        rw [hc] at ht
        exact Bool.false_ne_true ht
      rw [List.map_append]
      simp [List.nodup_append, h, hk]
    · simpa using h

/-- Every entry of the seen_files dict records the distance of the file's
first chunk in result order and belongs to a file that actually occurs. -/
theorem seen_foldl_mem :
    ∀ (results : List SearchResult) (acc : List (String × ℚ)) (p : String × ℚ),
      p ∈ results.foldl seen_step acc →
      p ∈ acc ∨ (p.1 ∉ acc.map Prod.fst ∧
        (∃ r ∈ results, r.file_path = p.1) ∧ p.2 = first_chunk_dist results p.1)
  | [], _, _, hp => Or.inl hp
  | r :: rs, acc, p, hp => by
    rw [List.foldl_cons] at hp
    rcases seen_foldl_mem rs (seen_step acc r) p hp with h | ⟨hnotin, ⟨r', hr', hr'p⟩, hfd⟩
    · unfold seen_step at h
      by_cases hc : (acc.map Prod.fst).contains r.file_path = true
      · rw [if_pos hc] at h
        exact Or.inl h
      · rw [if_neg hc] at h
        rcases List.mem_append.1 h with h' | h'
        · exact Or.inl h'
        · have hp' : p = (r.file_path, distVal r.distance) := by simpa using h'
          subst hp'
          refine Or.inr ⟨?_, ⟨r, List.mem_cons_self r rs, rfl⟩, ?_⟩
          · intro hm
            exact hc (List.elem_iff.2 hm)
          · unfold first_chunk_dist
            rw [List.find?_cons_of_pos _ (by simp)]
    · have hsup : ∀ q ∈ acc, q ∈ seen_step acc r := by
        intro q hq
        unfold seen_step
        by_cases hc : (acc.map Prod.fst).contains r.file_path = true
        · rw [if_pos hc]; exact hq
        · rw [if_neg hc]; exact List.mem_append_left _ hq
      have hacc : p.1 ∉ acc.map Prod.fst := by
        intro hm
        rcases List.mem_map.1 hm with ⟨q, hq, hq1⟩
        exact hnotin (List.mem_map.2 ⟨q, hsup q hq, hq1⟩)
      have hne : r.file_path ≠ p.1 := by
        by_cases hc : (acc.map Prod.fst).contains r.file_path = true
        · intro heq
          apply hacc
          rw [← heq]
          exact List.elem_iff.1 hc
        · intro heq
          apply hnotin
          unfold seen_step
          rw [if_neg hc, List.map_append]
          apply List.mem_append_right
          simp [heq]
      have hstep : first_chunk_dist (r :: rs) p.1 = first_chunk_dist rs p.1 := by
        unfold first_chunk_dist
        rw [List.find?_cons_of_neg _ (by simp [hne])]
      refine Or.inr ⟨hacc, ⟨r', List.mem_cons_of_mem r hr', hr'p⟩, ?_⟩
      rw [hstep]
      exact hfd

/-- The distance of the first matching chunk occurs among the file's chunk
distances. -/
theorem find_first_mem_dists (results : List SearchResult) (f : String) (r₀ : SearchResult)
    (h : results.find? (fun r => r.file_path == f) = some r₀) :
    distVal r₀.distance ∈ file_chunk_dists results f := by
  have hm : r₀ ∈ results := List.mem_of_find?_eq_some h
  have hp := List.find?_some h
  exact List.mem_map.2 ⟨r₀, List.mem_filter.2 ⟨hm, by simpa using hp⟩, rfl⟩

/-- In a result list sorted ascending by (coerced) distance, the first
matching chunk carries the minimum distance among the file's chunks. -/
theorem find_first_min :
    ∀ (results : List SearchResult),
      results.Pairwise (fun a b => distVal a.distance ≤ distVal b.distance) →
      ∀ (f : String) (r₀ : SearchResult),
        results.find? (fun r => r.file_path == f) = some r₀ →
        ∀ d ∈ file_chunk_dists results f, distVal r₀.distance ≤ d
  | [], _, f, r₀, h => by simp [List.find?] at h
  | x :: t, hp, f, r₀, h => by
    intro d hd
    by_cases hx : (x.file_path == f) = true
    · rw [List.find?_cons_of_pos (p := fun r : SearchResult => r.file_path == f) _ hx] at h
      injection h with h
      subst h
      unfold file_chunk_dists at hd
      rw [List.filter_cons_of_pos (p := fun r : SearchResult => r.file_path == f) hx] at hd
      simp only [List.map_cons] at hd
      rcases List.mem_cons.1 hd with h' | h'
      · rw [h']
      · rcases List.mem_map.1 h' with ⟨r', hr', rfl⟩
        have hr't : r' ∈ t := List.mem_of_mem_filter hr'
        exact (List.pairwise_cons.1 hp).1 r' hr't
    · rw [List.find?_cons_of_neg (p := fun r : SearchResult => r.file_path == f) _ hx] at h
      have ht := find_first_min t (List.pairwise_cons.1 hp).2 f r₀ h
      unfold file_chunk_dists at hd
      rw [List.filter_cons_of_neg (p := fun r : SearchResult => r.file_path == f) hx] at hd
      exact ht d hd

/-- C7 as stated is false: the amended claim. The per-file distance used for
ranking is that of the file's first-listed chunk in the backend's result
order (with None and 0.0 coerced to 0), not in general the minimum; the
output is deduplicated by path, sorted ascending by that per-file value,
and has at most max_files entries. When the backend returns its chunks
sorted ascending by distance — as a vector store does — the first-listed
distance is exactly the minimum among the file's chunks. -/
theorem spec_c7_amended (results : List SearchResult) (max_files : Nat) :
    (get_relevant_files results max_files).length ≤ max_files ∧
    (get_relevant_files results max_files).Nodup ∧
    List.Pairwise (fun f g => first_chunk_dist results f ≤ first_chunk_dist results g)
      (get_relevant_files results max_files) ∧
    (results.Pairwise (fun a b => distVal a.distance ≤ distVal b.distance) →
      ∀ f ∈ get_relevant_files results max_files,
        first_chunk_dist results f ∈ file_chunk_dists results f ∧
        ∀ d ∈ file_chunk_dists results f, first_chunk_dist results f ≤ d) := by
  have hout : get_relevant_files results max_files =
      ((List.insertionSort byDistance (seen_files_fold results)).take max_files).map
        Prod.fst := rfl
  have hperm : List.Perm (List.insertionSort byDistance (seen_files_fold results))
      (seen_files_fold results) := List.perm_insertionSort byDistance _
  have hvals : ∀ q ∈ (List.insertionSort byDistance (seen_files_fold results)).take max_files,
      q.2 = first_chunk_dist results q.1 := by
    intro q hq
    have hq1 : q ∈ List.insertionSort byDistance (seen_files_fold results) :=
      (List.take_sublist _ _).subset hq
    have hq2 : q ∈ seen_files_fold results := hperm.subset hq1
    rcases seen_foldl_mem results [] q hq2 with h | ⟨_, _, hfd⟩
    · simp at h
    · exact hfd
  refine ⟨?_, ?_, ?_, ?_⟩
  · rw [hout, List.length_map]
    exact List.length_take_le _ _
  · have h1 : ((seen_files_fold results).map Prod.fst).Nodup :=
      seen_foldl_keys_nodup results [] (by simp)
    have h2 : ((List.insertionSort byDistance (seen_files_fold results)).map Prod.fst).Nodup :=
      (hperm.map Prod.fst).nodup_iff.2 h1
    rw [hout, List.map_take]
    exact List.Nodup.sublist (List.take_sublist _ _) h2
  · have hs : List.Pairwise byDistance (List.insertionSort byDistance (seen_files_fold results)) :=
      List.sorted_insertionSort byDistance _
    have htk : List.Pairwise byDistance
        ((List.insertionSort byDistance (seen_files_fold results)).take max_files) :=
      List.Pairwise.sublist (List.take_sublist _ _) hs
    rw [hout, List.pairwise_map]
    refine List.Pairwise.imp_of_mem ?_ htk
    intro a b ha hb hr
    rw [← hvals a ha, ← hvals b hb]
    exact hr
  · intro hsorted f hf
    rw [hout] at hf
    rcases List.mem_map.1 hf with ⟨p, hp, rfl⟩
    have hpseen : p ∈ seen_files_fold results :=
      hperm.subset ((List.take_sublist _ _).subset hp)
    obtain ⟨_, ⟨r', hr', hr'f⟩, _⟩ :=
      (seen_foldl_mem results [] p hpseen).resolve_left (by simp)
    have hex : ∃ r₀, results.find? (fun r => r.file_path == p.1) = some r₀ :=
      Option.isSome_iff_exists.1 (List.find?_isSome.2 ⟨r', hr', by simp [hr'f]⟩)
    obtain ⟨r₀, hr₀⟩ := hex
    have hfcd : first_chunk_dist results p.1 = distVal r₀.distance := by
      unfold first_chunk_dist
      rw [hr₀]
    constructor
    · rw [hfcd]
      exact find_first_mem_dists results p.1 r₀ hr₀
    · intro d hd
      rw [hfcd]
      exact find_first_min results hsorted p.1 r₀ hr₀ d hd

/-- Counterexample to C7 as stated: file "a"'s minimum chunk distance is 1,
file "b"'s is 3, yet the returned ranking lists "b" before "a" — the code
records a file's first-listed chunk distance (5 for "a"), not its minimum,
so the output is not sorted by minimum chunk distance. -/
theorem spec_c7_counterexample :
    get_relevant_files cexResults 20 = ["b", "a"] ∧
    claimed_min_chunk_dist cexResults "a" = some 1 ∧
    claimed_min_chunk_dist cexResults "b" = some 3 ∧
    first_chunk_dist cexResults "a" = 5 ∧
    ¬ List.Pairwise
        (fun f g => distVal (claimed_min_chunk_dist cexResults f) ≤
          distVal (claimed_min_chunk_dist cexResults g))
        (get_relevant_files cexResults 20) := by
  refine ⟨by decide, by decide, by decide, by decide, ?_⟩
  intro hpair
  rw [show get_relevant_files cexResults 20 = ["b", "a"] from by decide] at hpair
  have h31 := (List.pairwise_cons.1 hpair).1 "a" (by simp)
  revert h31
  decide

/-- Witness for the amended C7 at a concrete sorted backend result. -/
theorem spec_c7_witness :
    List.Pairwise (fun a b => distVal a.distance ≤ distVal b.distance) sortedResults ∧
    "a" ∈ get_relevant_files sortedResults 20 ∧
    (first_chunk_dist sortedResults "a" ∈ file_chunk_dists sortedResults "a" ∧
      ∀ d ∈ file_chunk_dists sortedResults "a", first_chunk_dist sortedResults "a" ≤ d) := by
  have hp : List.Pairwise (fun a b => distVal a.distance ≤ distVal b.distance) sortedResults := by
    decide
  have hm : "a" ∈ get_relevant_files sortedResults 20 := by decide
  exact ⟨hp, hm, (spec_c7_amended sortedResults 20).2.2.2 hp "a" hm⟩

end AIAgent
